import Mathlib

/-!
Verification of the WhiteBream VFS filesystem wrapper (`src/vfs.c`, `src/vfs.h`).

Shallow embedding conventions:
* C strings are modelled as the list of their characters before the
  terminating NUL (`CStr`); embedded strings contain no NUL byte.
* Machine integers are `Nat`/`Int`, with an explicit `% 2 ^ 32` wherever
  32-bit wrap-around matters.
* The wrapped backend libraries (FatFS, LittleFS, JesFS) are external
  collaborators; their primitive operations are abstracted as oracle
  parameters supplying the backend's results.
-/

namespace VFS

/-! ### Errno constants (newlib values used by the source) -/

def ENOENT : Int := 2
def ENXIO : Int := 6
def EBADF : Int := 9
def ENOMEM : Int := 12
def EINVAL : Int := 22
def ENOSPC : Int := 28

/-! ### C characters and strings -/

/-- ASCII `toupper`, as applied by `strncasecmp` and by `toupper` in vfs.c. -/
def upch (c : Char) : Char :=
  if 'a' ≤ c ∧ c ≤ 'z' then Char.ofNat (c.toNat - 32) else c

/-- A C string: the characters before the terminating NUL. -/
abbrev CStr := List Char

/-- `strncasecmp(a, b, n) == 0`: the first `n` characters (or all of them,
if a terminator comes first) agree up to ASCII case. -/
def ncasecmpEq (a b : CStr) (n : Nat) : Bool :=
  (a.take n).map upch == (b.take n).map upch

/-- `strncmp(a, b, n) == 0` (case sensitive). -/
def ncmpEq (a b : CStr) (n : Nat) : Bool :=
  a.take n == b.take n

/-- The character `path[i]`, reading the terminating NUL as `'\x00'`. -/
def charAt (a : CStr) (i : Nat) : Char :=
  a.getD i (Char.ofNat 0)

/-! ### Data model: `Fs_t` and `FileSystem_t` (vfs.h)

The union payload of `FileSystem_t` is device state owned by the backend;
the only fact about it that vfs.c branches on is whether the backend
filesystem pointer (`fatfs.fs` / `lfs.fs`) is currently non-null, kept here
as `fsAllocated`.  `hasCb` models `eventcb != nullptr`. -/

inductive Fs_t where
  | FS_NONE
  | FS_ROOT
  | FS_FATFS
  | FS_LITTLEFS
  | FS_JESFS
deriving DecidableEq, Repr

structure FileSystem_t where
  drive : CStr
  typ : Fs_t            -- `type & ~FS_FIXED`
  fixed : Bool          -- the `FS_FIXED` bit
  index : Int           -- mounted position: 0 = unmounted, else 1-based
  namelen : Nat         -- cached `strlen(drive)` (set by `vfs_init`)
  fsAllocated : Bool := false
  hasCb : Bool := false
deriving DecidableEq, Repr

/-! ### C1 — `_vfs_find_entry` (vfs.c:444-468) -/

/-- The loop body of `_vfs_find_entry` at table position `i`:
`strncasecmp(name, drive, namelen) == 0 && (force || index == i + 1)`. -/
def driveAccepts (name : CStr) (force : Bool) (e : FileSystem_t) (i : Nat) : Bool :=
  ncasecmpEq name e.drive e.namelen && (force || e.index == (i : Int) + 1)

/-- The scan loop of `_vfs_find_entry`, started at position `i`. -/
def findEntryLoop (tbl : List FileSystem_t) (name : CStr) (force : Bool) (i : Nat) :
    Option Nat :=
  match tbl with
  | [] => none
  | e :: rest =>
      if driveAccepts name force e i then some i
      else findEntryLoop rest name force (i + 1)

/-- `_vfs_find_entry(name, force)`: null guard, scan loop, then the
single-drive fallback for paths without a `':'` drive separator. -/
def _vfs_find_entry (tbl : List FileSystem_t) (name : Option CStr) (force : Bool) : Int :=
  match name with
  | none => -ENOENT
  | some nm =>
      match findEntryLoop tbl nm force 0 with
      | some i => (i : Int)
      | none =>
          if tbl.length == 1 && !(nm.contains ':') then 0 else -ENOENT

/-- Example drive table entries for the resolution examples. -/
def entryA : FileSystem_t :=
  { drive := [Char.ofNat 65, Char.ofNat 58], typ := .FS_FATFS, fixed := true,
    index := 1, namelen := 2 }

def entryB : FileSystem_t :=
  { drive := [Char.ofNat 66, Char.ofNat 58], typ := .FS_FATFS, fixed := true,
    index := 2, namelen := 2 }

theorem findEntryLoop_some_iff (name : CStr) (force : Bool) :
    ∀ (tbl : List FileSystem_t) (base i : Nat),
      findEntryLoop tbl name force base = some i ↔
      ∃ k e, tbl[k]? = some e ∧ i = base + k ∧
        driveAccepts name force e (base + k) = true ∧
        ∀ j e2, j < k → tbl[j]? = some e2 → driveAccepts name force e2 (base + j) = false := by
  intro tbl
  induction tbl with
  | nil => intro base i; simp [findEntryLoop]
  | cons e rest ih =>
      intro base i
      by_cases h : driveAccepts name force e base = true
      · constructor
        · intro hl
          simp only [findEntryLoop, h, if_true] at hl
          obtain rfl := Option.some.inj hl
          exact ⟨0, e, by simp, by omega, by simpa using h, by omega⟩
        · rintro ⟨k, e2, hk, hi, hacc, hmin⟩
          cases k with
          | zero =>
              simp only [List.getElem?_cons_zero, Option.some.injEq] at hk
              subst hk
              simp [findEntryLoop, h, hi]
          | succ k' =>
              exact absurd h (by simpa using hmin 0 e (Nat.succ_pos _) (by simp))
      · have h' : driveAccepts name force e base = false := by
          simpa using h
        constructor
        · intro hl
          have hl2 : findEntryLoop rest name force (base + 1) = some i := by
            simpa [findEntryLoop, h'] using hl
          obtain ⟨k, e2, hk, hi, hacc, hmin⟩ := (ih (base + 1) i).1 hl2
          refine ⟨k + 1, e2, by rw [List.getElem?_cons_succ]; exact hk, by omega, by
            have : base + 1 + k = base + (k + 1) := by omega
            rwa [this] at hacc, ?_⟩
          intro j e3 hj hje
          cases j with
          | zero =>
              simp only [List.getElem?_cons_zero, Option.some.injEq] at hje
              subst hje; simpa using h'
          | succ j' =>
              have := hmin j' e3 (by omega) (by simpa using hje)
              have harr : base + 1 + j' = base + (j' + 1) := by omega
              rwa [harr] at this
        · rintro ⟨k, e2, hk, hi, hacc, hmin⟩
          cases k with
          | zero =>
              simp only [List.getElem?_cons_zero, Option.some.injEq] at hk
              subst hk
              rw [show base + 0 = base by omega] at hacc
              exact absurd hacc (by simp [h'])
          | succ k' =>
              have hstep : findEntryLoop rest name force (base + 1) = some i → findEntryLoop (e :: rest) name force base = some i := by
                intro hr; simpa [findEntryLoop, h'] using hr
              refine hstep ((ih (base + 1) i).2 ⟨k', e2, by
                rw [List.getElem?_cons_succ] at hk; exact hk, by omega, by
                have : base + (k' + 1) = base + 1 + k' := by omega
                rwa [this] at hacc, ?_⟩)
              intro j e3 hj hje
              have := hmin (j + 1) e3 (by omega) (by simpa using hje)
              have harr : base + (j + 1) = base + 1 + j := by omega
              rwa [harr] at this

/-- C1. Drive resolution: `_vfs_find_entry(path, force)` scans the table in
registration order, accepting position `i` exactly when the path's leading
characters match drive `i`'s prefix case-insensitively up to its cached
prefix length and (`force` or entry `i` is currently mounted); when the scan
fails, a single-entry table resolves a separator-free path to index 0, and
everything else (including a null path) is Not-Found.  In particular with
mounted drives `["A:", "B:"]`, `"A:/x"` resolves to 0 and `"C:/x"` to
Not-Found, and with `["A:"]` alone, `"/x"` resolves to 0. -/
theorem claim_C1 :
    (∀ tbl force, _vfs_find_entry tbl none force = -ENOENT) ∧
    (∀ tbl name force i,
      findEntryLoop tbl name force 0 = some i ↔
      ∃ e, tbl[i]? = some e ∧ driveAccepts name force e i = true ∧
        ∀ j e2, j < i → tbl[j]? = some e2 → driveAccepts name force e2 j = false) ∧
    (∀ tbl name force i, findEntryLoop tbl name force 0 = some i →
      _vfs_find_entry tbl (some name) force = (i : Int)) ∧
    (∀ tbl name force, findEntryLoop tbl name force 0 = none →
      _vfs_find_entry tbl (some name) force =
        if tbl.length = 1 ∧ ':' ∉ name then 0 else -ENOENT) ∧
    _vfs_find_entry [entryA, entryB] (some ('A' :: ':' :: '/' :: 'x' :: [])) false = 0 ∧
    _vfs_find_entry [entryA, entryB] (some ('C' :: ':' :: '/' :: 'x' :: [])) false = -ENOENT ∧
    _vfs_find_entry [entryA] (some ('/' :: 'x' :: [])) false = 0 := by
  refine ⟨fun tbl force => rfl, ?_, ?_, ?_, by decide, by decide, by decide⟩
  · intro tbl name force i
    rw [findEntryLoop_some_iff name force tbl 0 i]
    constructor
    · rintro ⟨k, e, hk, hi, hacc, hmin⟩
      subst hi
      simp only [Nat.zero_add] at hacc ⊢
      exact ⟨e, hk, hacc, fun j e2 hj hje => by simpa using hmin j e2 hj hje⟩
    · rintro ⟨e, hk, hacc, hmin⟩
      exact ⟨i, e, hk, by omega, by simpa using hacc,
        fun j e2 hj hje => by simpa using hmin j e2 hj hje⟩
  · intro tbl name force i h
    simp [_vfs_find_entry, h]
  · intro tbl name force h
    simp only [_vfs_find_entry, h]
    have hiff : (tbl.length == 1 && !(name.contains ':')) = true ↔
        (tbl.length = 1 ∧ ':' ∉ name) := by
      simp [List.contains]
    by_cases h1 : tbl.length = 1 ∧ ':' ∉ name
    · rw [if_pos h1, if_pos (hiff.2 h1)]
    · rw [if_neg h1, if_neg (fun hb => h1 (hiff.1 hb))]

theorem claim_C1_witness :
    _vfs_find_entry [entryA] none false = -ENOENT ∧
    _vfs_find_entry [entryA, entryB] (some ('A' :: ':' :: '/' :: 'x' :: [])) false = 0 :=
  ⟨claim_C1.1 [entryA] false, claim_C1.2.2.2.2.1⟩

/-! ### C2 — synthetic inode packing (vfs.h:80-91)

The macros operate on `uint32_t`; shifts of `UINT32_MAX` are reduced
`% 2 ^ 32` exactly where the C value wraps. -/

def INODE_STORAGE_BITS : Nat := 2
def INODE_FOLDER_BITS : Nat := 10
def INODE_ITEM_BITS : Nat := 32 - INODE_FOLDER_BITS - INODE_STORAGE_BITS
def UINT32_MAX : Nat := 2 ^ 32 - 1
def INODE_ITEM_MASK : Nat := UINT32_MAX >>> (INODE_FOLDER_BITS + INODE_STORAGE_BITS)
def INODE_FOLDER_MASK : Nat :=
  (UINT32_MAX >>> INODE_STORAGE_BITS) &&& ((UINT32_MAX <<< INODE_ITEM_BITS) % 2 ^ 32)
def INODE_STORAGE (x : Nat) : Nat := x >>> (32 - INODE_STORAGE_BITS)
def INODE_FOLDER (x : Nat) : Nat :=
  (x &&& INODE_FOLDER_MASK) >>> (32 - INODE_FOLDER_BITS - INODE_STORAGE_BITS)

/-- Packing a (storage, folder, item) triple high-to-low into one 32-bit
inode, as done at the call sites (`index << INODE_ITEM_BITS`, item ids or'd
into the low bits). -/
def inodeEncode (s f i : Nat) : Nat :=
  ((s <<< (INODE_FOLDER_BITS + INODE_ITEM_BITS)) |||
    (f <<< INODE_ITEM_BITS) ||| (i &&& INODE_ITEM_MASK)) % 2 ^ 32

/-- Bit-window extraction: and-ing with a mask `(2^k - 1) * 2^n` keeps the
`k` bits starting at position `n`. -/
theorem and_mask_window (x n k : Nat) :
    x &&& (2 ^ k - 1) * 2 ^ n = x / 2 ^ n % 2 ^ k * 2 ^ n := by
  apply Nat.eq_of_testBit_eq
  intro j
  rw [show (2 ^ k - 1) * 2 ^ n = (2 ^ k - 1) <<< n by rw [Nat.shiftLeft_eq],
    show x / 2 ^ n % 2 ^ k * 2 ^ n = (x >>> n % 2 ^ k) <<< n by
      rw [Nat.shiftLeft_eq, Nat.shiftRight_eq_div_pow]]
  rcases Nat.lt_or_ge j n with h | h
  · simp [Nat.testBit_and, Nat.testBit_shiftLeft, Nat.not_le_of_lt h]
  · have hj : n + (j - n) = j := Nat.add_sub_cancel' h
    simp [Nat.testBit_and, Nat.testBit_shiftLeft, Nat.testBit_mod_two_pow,
      Nat.testBit_shiftRight, Nat.testBit_two_pow_sub_one, h, hj,
      Bool.and_assoc, Bool.and_comm, Bool.and_left_comm]

/-- C2. Inode round-trip: with the default field widths 2/10/20, packing an
in-range (storage, folder, item) triple and extracting each field with the
`INODE_STORAGE`/`INODE_FOLDER`/`INODE_ITEM_MASK` macros recovers the triple
exactly. -/
theorem claim_C2 (s f i : Nat)
    (hs : s < 2 ^ INODE_STORAGE_BITS) (hf : f < 2 ^ INODE_FOLDER_BITS)
    (hi : i < 2 ^ INODE_ITEM_BITS) :
    INODE_STORAGE (inodeEncode s f i) = s ∧
    INODE_FOLDER (inodeEncode s f i) = f ∧
    inodeEncode s f i &&& INODE_ITEM_MASK = i := by
  have hs4 : s < 2 ^ 2 := hs
  have hf10 : f < 2 ^ 10 := hf
  have hi20 : i < 2 ^ 20 := hi
  have hitem : INODE_ITEM_MASK = 2 ^ 20 - 1 := by decide
  have henc : inodeEncode s f i = 2 ^ 20 * (2 ^ 10 * s + f) + i := by
    unfold inodeEncode
    rw [hitem, Nat.and_pow_two_sub_one_eq_mod, Nat.mod_eq_of_lt hi20]
    rw [show INODE_FOLDER_BITS + INODE_ITEM_BITS = 30 by decide,
      show INODE_ITEM_BITS = 20 by decide]
    rw [Nat.shiftLeft_eq, Nat.shiftLeft_eq]
    rw [show s * 2 ^ 30 = 2 ^ 30 * s by ring]
    rw [← Nat.mul_add_lt_is_or (show f * 2 ^ 20 < 2 ^ 30 by omega) s]
    rw [show 2 ^ 30 * s + f * 2 ^ 20 = 2 ^ 20 * (2 ^ 10 * s + f) by ring]
    rw [← Nat.mul_add_lt_is_or hi20 (2 ^ 10 * s + f)]
    exact Nat.mod_eq_of_lt (by omega)
  refine ⟨?_, ?_, ?_⟩
  · rw [henc]
    rw [show INODE_STORAGE = fun x => x >>> 30 from rfl]
    simp only [Nat.shiftRight_eq_div_pow]
    rw [show (2 : Nat) ^ 30 = 2 ^ 20 * 2 ^ 10 by ring, ← Nat.div_div_eq_div_mul,
      Nat.mul_add_div (by positivity), Nat.div_eq_of_lt hi20, Nat.add_zero,
      Nat.mul_add_div (by positivity), Nat.div_eq_of_lt hf10, Nat.add_zero]
  · rw [henc]
    rw [show INODE_FOLDER = fun x =>
      (x &&& INODE_FOLDER_MASK) >>> 20 from rfl]
    simp only
    rw [show INODE_FOLDER_MASK = (2 ^ 10 - 1) * 2 ^ 20 by decide, and_mask_window,
      Nat.shiftRight_eq_div_pow, Nat.mul_div_cancel _ (by positivity),
      Nat.mul_add_div (by positivity), Nat.div_eq_of_lt hi20, Nat.add_zero,
      Nat.mul_add_mod]
    exact Nat.mod_eq_of_lt hf10
  · rw [henc, hitem, Nat.and_pow_two_sub_one_eq_mod, Nat.mul_add_mod]
    exact Nat.mod_eq_of_lt hi20

theorem claim_C2_witness :
    3 < 2 ^ INODE_STORAGE_BITS ∧ 1000 < 2 ^ INODE_FOLDER_BITS ∧
    123456 < 2 ^ INODE_ITEM_BITS ∧
    (INODE_STORAGE (inodeEncode 3 1000 123456) = 3 ∧
     INODE_FOLDER (inodeEncode 3 1000 123456) = 1000 ∧
     inodeEncode 3 1000 123456 &&& INODE_ITEM_MASK = 123456) :=
  ⟨by decide, by decide, by decide,
    claim_C2 3 1000 123456 (by decide) (by decide) (by decide)⟩

/-! ### C3 — FAT timestamp codec (vfs.c:116-225)

`_ff_timestamp` decodes the packed 16-bit FAT date/time fields to epoch
seconds; the packing half of `_ff_fat_timedate` encodes `struct tm` fields
(produced by the external libc `gmtime`) into those packed fields.  The year
loop is modelled by a structurally recursive iteration count (`x - y`
iterations), exactly the number of passes the C loop makes. -/

/-- `__isleap` (vfs.c:20). -/
def isleap (y : Nat) : Bool := y % 4 == 0 && (y % 100 != 0 || y % 400 == 0)

/-- The `vMonths` table (vfs.c:119-123). -/
def vMonths (leap : Bool) : List Nat :=
  if leap then [31, 29, 31, 30, 31, 30, 31, 31, 30, 31, 30, 31]
  else [31, 28, 31, 30, 31, 30, 31, 31, 30, 31, 30, 31]

/-- `n` passes of the year loop `for (; y < x; y++) t += isleap(y) ? 366 : 365`. -/
def yearDaysAux (y : Nat) : Nat → Nat
  | 0 => 0
  | n + 1 => (if isleap y then 366 else 365) + yearDaysAux (y + 1) n

/-- Days contributed by the year loop running from `y` up to `x`. -/
def yearDaysFrom (y x : Nat) : Nat := yearDaysAux y (x - y)

/-- The month loop `for (x = 0; x < m; x++) t += vMonths[isleap(y)][x]`
(vfs.c:155-158); for `m ≤ 12` this is exactly the C sum (beyond 12 the C
code would read out of the table's bounds). -/
def monthDaysBefore (leap : Bool) (m : Nat) : Nat :=
  ((vMonths leap).take m).sum

/-- `_ff_timestamp` (vfs.c:116-181): decode packed FAT date/time to epoch
seconds.  The month-loop bound `((n >> 5) & 0xF) - 1` is a C `int`; for a
zero month field it is `-1` and the loop body never runs, which truncated
`Nat` subtraction models exactly. -/
def _ff_timestamp (fdate ftime : Nat) : Int :=
  let x : Nat := ((fdate >>> 9) &&& 0x7F) + 1980
  let yd : Nat :=
    if 2018 < x then 1514764800 / 86400 + yearDaysFrom 2018 x
    else yearDaysFrom 1970 x
  let t : Int :=
    ((yd + monthDaysBefore (isleap x) (((fdate >>> 5) &&& 0xF) - 1) : Nat) : Int)
      + ((fdate &&& 0x1F : Nat) : Int) - 1
  t * 86400 + 3600 * (((ftime >>> 11) &&& 0x1F : Nat) : Int)
    + 60 * (((ftime >>> 5) &&& 0x3F : Nat) : Int)
    + 2 * ((ftime &&& 0x1F : Nat) : Int)

/-- The date-packing half of `_ff_fat_timedate` (vfs.c:190-195).  Inputs are
the `struct tm` fields delivered by the external `gmtime`:
`tmYear` = year − 1900, `tmMon` = month − 1 (0-based), `tmMday` = day. -/
def _ff_fat_date (tmYear tmMon tmMday : Nat) : Nat :=
  if 80 < tmYear then
    ((((tmYear - 80) &&& 0x7F) <<< 9) ||| ((tmMon + 1) <<< 5)) ||| tmMday
  else 0

/-- The time-packing half of `_ff_fat_timedate` (vfs.c:209-211). -/
def _ff_fat_time (tmHour tmMin tmSec : Nat) : Nat :=
  ((tmHour <<< 11) ||| (tmMin <<< 5)) ||| (tmSec / 2)

/-- Reference meaning of a civil date-time (year, month 1-12, day, h, mi, s)
as a Unix epoch instant, built from the standard Gregorian rules; this is
what "decoding reproduces the same fields" denotes. -/
def civilToEpoch (y mo d h mi s : Nat) : Int :=
  ((yearDaysFrom 1970 y + monthDaysBefore (isleap y) (mo - 1) + (d - 1)) * 86400
    + 3600 * h + 60 * mi + s : Nat)

theorem yearDaysAux_add (a b : Nat) :
    ∀ y, yearDaysAux y (a + b) = yearDaysAux y a + yearDaysAux (y + a) b := by
  induction a with
  | zero => intro y; simp [yearDaysAux]
  | succ a ih =>
      intro y
      have : a + 1 + b = (a + b) + 1 := by omega
      rw [this, yearDaysAux, yearDaysAux, ih (y + 1)]
      have : y + 1 + a = y + (a + 1) := by omega
      rw [this, Nat.add_assoc]

theorem yearDaysFrom_split (y m x : Nat) (h1 : y ≤ m) (h2 : m ≤ x) :
    yearDaysFrom y x = yearDaysFrom y m + yearDaysFrom m x := by
  unfold yearDaysFrom
  rw [show x - y = (m - y) + (x - m) by omega, yearDaysAux_add,
    show y + (m - y) = m by omega]

/-- C3 counterexample: the year 1980 — inside the claimed 1980–2107 range —
does not round-trip: `tm_year > 80` is false for 1980, so the encoder emits
the zero sentinel date, which decodes to Dec 31 1979 rather than to the
original civil fields. -/
theorem claim_C3_counterexample :
    _ff_fat_date (1980 - 1900) (6 - 1) 15 = 0 ∧
    _ff_timestamp (_ff_fat_date (1980 - 1900) (6 - 1) 15) (_ff_fat_time 12 30 0) ≠
      civilToEpoch 1980 6 15 12 30 (2 * (0 / 2)) := by
  exact ⟨by decide, by decide⟩

/-- C3 (amended). For every date-time with year 1981–2107, month 1–12, day
1–28, hour 0–23, minute 0–59, second 0–59, packing the fields with
`_ff_fat_timedate` and decoding with `_ff_timestamp` reproduces exactly the
epoch instant of the same civil fields with seconds truncated to 2-second
resolution; and the encoder stores the zero "unknown" date sentinel for any
source year up to and including 1980 (not only for years before 1980). -/
theorem claim_C3_amended (y mo d h mi s : Nat)
    (hy1 : 1981 ≤ y) (hy2 : y ≤ 2107) (hmo1 : 1 ≤ mo) (hmo2 : mo ≤ 12)
    (hd1 : 1 ≤ d) (hd2 : d ≤ 28) (hh : h ≤ 23) (hmi : mi ≤ 59) (hs : s ≤ 59) :
    _ff_timestamp (_ff_fat_date (y - 1900) (mo - 1) d) (_ff_fat_time h mi s) =
      civilToEpoch y mo d h mi (2 * (s / 2)) ∧
    (∀ ty tmo td, ty ≤ 80 → _ff_fat_date ty tmo td = 0) := by
  constructor
  · -- the packed date equals 512·(y−1980) + 32·mo + d
    have hyoff : y - 1900 - 80 = y - 1980 := by omega
    have hdate : _ff_fat_date (y - 1900) (mo - 1) d =
        2 ^ 5 * (2 ^ 4 * (y - 1980) + mo) + d := by
      unfold _ff_fat_date
      rw [if_pos (by omega), hyoff, show mo - 1 + 1 = mo by omega]
      rw [show (0x7F : Nat) = 2 ^ 7 - 1 by decide, Nat.and_pow_two_sub_one_eq_mod,
        Nat.mod_eq_of_lt (by omega)]
      rw [Nat.shiftLeft_eq, Nat.shiftLeft_eq]
      rw [show (y - 1980) * 2 ^ 9 = 2 ^ 9 * (y - 1980) by ring]
      rw [← Nat.mul_add_lt_is_or (show mo * 2 ^ 5 < 2 ^ 9 by omega) (y - 1980)]
      rw [show 2 ^ 9 * (y - 1980) + mo * 2 ^ 5 = 2 ^ 5 * (2 ^ 4 * (y - 1980) + mo) by ring]
      rw [← Nat.mul_add_lt_is_or (show d < 2 ^ 5 by omega) (2 ^ 4 * (y - 1980) + mo)]
    have htime : _ff_fat_time h mi s = 2 ^ 5 * (2 ^ 6 * h + mi) + s / 2 := by
      unfold _ff_fat_time
      rw [Nat.shiftLeft_eq, Nat.shiftLeft_eq]
      rw [show h * 2 ^ 11 = 2 ^ 11 * h by ring]
      rw [← Nat.mul_add_lt_is_or (show mi * 2 ^ 5 < 2 ^ 11 by omega) h]
      rw [show 2 ^ 11 * h + mi * 2 ^ 5 = 2 ^ 5 * (2 ^ 6 * h + mi) by ring]
      rw [← Nat.mul_add_lt_is_or (show s / 2 < 2 ^ 5 by omega) (2 ^ 6 * h + mi)]
    rw [hdate, htime]
    unfold _ff_timestamp
    -- extract the fields back out of the packed words
    have e1 : (2 ^ 5 * (2 ^ 4 * (y - 1980) + mo) + d) >>> 9 &&& 0x7F = y - 1980 := by
      rw [Nat.shiftRight_eq_div_pow,
        show (2 : Nat) ^ 9 = 2 ^ 5 * 2 ^ 4 by ring, ← Nat.div_div_eq_div_mul,
        Nat.mul_add_div (by positivity), Nat.div_eq_of_lt (show d < 2 ^ 5 by omega),
        Nat.add_zero, Nat.mul_add_div (by positivity),
        Nat.div_eq_of_lt (show mo < 2 ^ 4 by omega), Nat.add_zero,
        show (0x7F : Nat) = 2 ^ 7 - 1 by decide, Nat.and_pow_two_sub_one_eq_mod,
        Nat.mod_eq_of_lt (show y - 1980 < 2 ^ 7 by omega)]
    have e2 : (2 ^ 5 * (2 ^ 4 * (y - 1980) + mo) + d) >>> 5 &&& 0xF = mo := by
      rw [Nat.shiftRight_eq_div_pow, Nat.mul_add_div (by positivity),
        Nat.div_eq_of_lt (show d < 2 ^ 5 by omega), Nat.add_zero,
        show (0xF : Nat) = 2 ^ 4 - 1 by decide, Nat.and_pow_two_sub_one_eq_mod,
        Nat.mul_add_mod, Nat.mod_eq_of_lt (show mo < 2 ^ 4 by omega)]
    have e3 : (2 ^ 5 * (2 ^ 4 * (y - 1980) + mo) + d) &&& 0x1F = d := by
      rw [show (0x1F : Nat) = 2 ^ 5 - 1 by decide, Nat.and_pow_two_sub_one_eq_mod,
        Nat.mul_add_mod, Nat.mod_eq_of_lt (show d < 2 ^ 5 by omega)]
    have f1 : (2 ^ 5 * (2 ^ 6 * h + mi) + s / 2) >>> 11 &&& 0x1F = h := by
      rw [Nat.shiftRight_eq_div_pow,
        show (2 : Nat) ^ 11 = 2 ^ 5 * 2 ^ 6 by ring, ← Nat.div_div_eq_div_mul,
        Nat.mul_add_div (by positivity), Nat.div_eq_of_lt (show s / 2 < 2 ^ 5 by omega),
        Nat.add_zero, Nat.mul_add_div (by positivity),
        Nat.div_eq_of_lt (show mi < 2 ^ 6 by omega), Nat.add_zero,
        show (0x1F : Nat) = 2 ^ 5 - 1 by decide, Nat.and_pow_two_sub_one_eq_mod,
        Nat.mod_eq_of_lt (show h < 2 ^ 5 by omega)]
    have f2 : (2 ^ 5 * (2 ^ 6 * h + mi) + s / 2) >>> 5 &&& 0x3F = mi := by
      rw [Nat.shiftRight_eq_div_pow, Nat.mul_add_div (by positivity),
        Nat.div_eq_of_lt (show s / 2 < 2 ^ 5 by omega), Nat.add_zero,
        show (0x3F : Nat) = 2 ^ 6 - 1 by decide, Nat.and_pow_two_sub_one_eq_mod,
        Nat.mul_add_mod, Nat.mod_eq_of_lt (show mi < 2 ^ 6 by omega)]
    have f3 : (2 ^ 5 * (2 ^ 6 * h + mi) + s / 2) &&& 0x1F = s / 2 := by
      rw [show (0x1F : Nat) = 2 ^ 5 - 1 by decide, Nat.and_pow_two_sub_one_eq_mod,
        Nat.mul_add_mod, Nat.mod_eq_of_lt (show s / 2 < 2 ^ 5 by omega)]
    simp only [e1, e2, e3, f1, f2, f3]
    have hx : y - 1980 + 1980 = y := by omega
    rw [hx]
    -- the fast-path constant plus the loop from 2018 equals the loop from 1970
    have hyd : (if 2018 < y then 1514764800 / 86400 + yearDaysFrom 2018 y
        else yearDaysFrom 1970 y) = yearDaysFrom 1970 y := by
      by_cases hc : 2018 < y
      · rw [if_pos hc, yearDaysFrom_split 1970 2018 y (by omega) (by omega)]
        norm_num
        decide
      · rw [if_neg hc]
    rw [hyd]
    unfold civilToEpoch
    have hcast : ((d - 1 : Nat) : Int) = (d : Int) - 1 := by omega
    push_cast [hcast]
    ring
  · intro ty tmo td hty
    unfold _ff_fat_date
    rw [if_neg (by omega)]

theorem claim_C3_amended_witness :
    _ff_timestamp (_ff_fat_date (2024 - 1900) (4 - 1) 15) (_ff_fat_time 10 20 31) =
      civilToEpoch 2024 4 15 10 20 (2 * (31 / 2)) ∧ _ff_fat_date 80 5 15 = 0 :=
  ⟨(claim_C3_amended 2024 4 15 10 20 31 (by decide) (by decide) (by decide)
      (by decide) (by decide) (by decide) (by decide) (by decide) (by decide)).1,
   (claim_C3_amended 2024 4 15 10 20 31 (by decide) (by decide) (by decide)
      (by decide) (by decide) (by decide) (by decide) (by decide) (by decide)).2
      80 5 15 (by decide)⟩

/-! ### C4 — wildcard matcher `pattern_matching` (vfs.c:1431-1494) -/

/-- Analysis of a maximal run of wildcard characters (the inner do-while at
vfs.c:1458-1470): the number of `'?'` seen (`nm`), whether any `'*'` was
seen (`nx`), and the pattern rest after the run. -/
def wildRun : List Char → Nat × Bool × List Char
  | c :: rest =>
      if c = '?' ∨ c = '*' then
        let r := wildRun rest
        (if c = '?' then r.1 + 1 else r.1, if c = '?' then r.2.1 else true, r.2.2)
      else (0, false, c :: rest)
  | [] => (0, false, [])

theorem wildRun_length (l : List Char) : (wildRun l).2.2.length ≤ l.length := by
  induction l with
  | nil => simp [wildRun]
  | cons c rest ih =>
      rw [wildRun]
      by_cases h : c = '?' ∨ c = '*'
      · simp only [if_pos h]
        exact Nat.le_trans ih (by simp)
      · simp [if_neg h]

mutual

/-- `pattern_matching(pat, nam, skip, inf)` (vfs.c:1431-1494): pre-skip
`skip` name characters (mismatch if the name runs out first), short-circuit
an empty pattern in an unbounded-tail (`inf`) context, then run the retry
loop. -/
def pattern_matching (pat nam : List Char) (skip : Nat) (inf : Bool) : Bool :=
  match skip with
  | skip' + 1 =>
      match nam with
      | [] => false
      | _ :: nam' => pattern_matching pat nam' skip' inf
  | 0 =>
      if pat.isEmpty && inf then true
      else pmLoop pat nam inf
termination_by (pat.length, nam.length + skip, 2)
decreasing_by
  · exact Prod.Lex.right _ (Prod.Lex.left _ _ (by simp only [List.length_cons]; omega))
  · exact Prod.Lex.right _ (Prod.Lex.right _ (by omega))

/-- The outer do-while of `pattern_matching`: try an anchored match at the
current name position; on failure retry one character further while `inf`
holds and the failure was not on an exhausted name (`nc != 0`). -/
def pmLoop (pat nam : List Char) (inf : Bool) : Bool :=
  let t := pmTry pat nam
  if t.1 then true
  else if inf && !t.2 then
    match nam with
    | [] => false
    | _ :: nam' => pmLoop pat nam' inf
  else false
termination_by (pat.length, nam.length, 1)
decreasing_by
  · exact Prod.Lex.right _ (Prod.Lex.right _ (by omega))
  · exact Prod.Lex.right _ (Prod.Lex.left _ _ (by simp only [List.length_cons]; omega))

/-- The anchored walk (the inner `for(;;)` of `pattern_matching`): compare
literals case-insensitively until a wildcard run (recursing past the run),
a mismatch, or the end of either string.  The second component records
whether the walk broke on an exhausted name (`nc == 0`). -/
def pmTry : List Char → List Char → Bool × Bool
  | p :: pr, np =>
      if p = '?' ∨ p = '*' then
        let r := wildRun pr
        if pattern_matching r.2.2 np (if p = '?' then r.1 + 1 else r.1)
            (if p = '?' then r.2.1 else true) then (true, true)
        else (false, np.isEmpty)
      else
        match np with
        | [] => (false, true)
        | c :: nr => if upch p = upch c then pmTry pr nr else (false, false)
  | [], np =>
      match np with
      | [] => (true, true)
      | _ :: _ => (false, false)
termination_by pp np => (pp.length, np.length, 0)
decreasing_by
  all_goals refine Prod.Lex.left _ _ ?_
  all_goals have := wildRun_length pr
  all_goals simp only [List.length_cons]
  all_goals omega

end

/-- Declarative glob semantics, formalizing the claim's reading of the
matcher: literals compare case-insensitively, `'?'` matches exactly one
character, `'*'` matches zero or more. -/
def globMatch : List Char → List Char → Bool
  | [], [] => true
  | [], _ :: _ => false
  | p :: pr, nam =>
      if p = '*' then
        globMatch pr nam ||
          match nam with
          | [] => false
          | _ :: nr => globMatch (p :: pr) nr
      else
        match nam with
        | [] => false
        | c :: nr => (p == '?' || upch p == upch c) && globMatch pr nr
termination_by pat nam => (pat.length, nam.length)

/-- A skip/unbounded-tail context in front of a pattern, as a pattern:
`skip` mandatory single-character wildcards, then an unbounded tail if
`inf`, then the rest. -/
def dress (skip : Nat) (inf : Bool) (pat : List Char) : List Char :=
  List.replicate skip '?' ++ (if inf then '*' :: pat else pat)

/-- Lower bound on the length of any name matched by a pattern: every
character but `'*'` consumes at least one name character. -/
def minLen : List Char → Nat
  | [] => 0
  | c :: l => (if c = '*' then 0 else 1) + minLen l

theorem glob_nil_nil : globMatch [] [] = true := by simp [globMatch]

theorem glob_nil_cons (c : Char) (n : List Char) : globMatch [] (c :: n) = false := by
  simp [globMatch]

theorem glob_star_nil (p : List Char) : globMatch ('*' :: p) [] = globMatch p [] := by
  simp [globMatch]

theorem glob_star_cons (p : List Char) (c : Char) (nr : List Char) :
    globMatch ('*' :: p) (c :: nr) =
      (globMatch p (c :: nr) || globMatch ('*' :: p) nr) := by
  rw [globMatch]
  simp

theorem glob_other_nil (p : Char) (pr : List Char) (h : p ≠ '*') :
    globMatch (p :: pr) [] = false := by
  simp [globMatch, h]

theorem glob_other_cons (p : Char) (pr : List Char) (c : Char) (nr : List Char)
    (h : p ≠ '*') :
    globMatch (p :: pr) (c :: nr) =
      ((p == '?' || upch p == upch c) && globMatch pr nr) := by
  rw [globMatch]
  simp [h]

theorem glob_q_nil (w : List Char) : globMatch ('?' :: w) [] = false :=
  glob_other_nil _ _ (by decide)

theorem glob_q_cons (w : List Char) (c : Char) (nr : List Char) :
    globMatch ('?' :: w) (c :: nr) = globMatch w nr := by
  rw [glob_other_cons _ _ _ _ (by decide)]
  simp

theorem glob_star_all (n : List Char) : globMatch ['*'] n = true := by
  induction n with
  | nil => rw [glob_star_nil]; exact glob_nil_nil
  | cons c nr ih => rw [glob_star_cons, ih]; simp

theorem glob_minLen_zero : ∀ p : List Char, minLen p = 0 → globMatch p [] = true := by
  intro p
  induction p with
  | nil => intro _; exact glob_nil_nil
  | cons c pr ih =>
      intro h
      rw [minLen] at h
      by_cases hc : c = '*'
      · subst hc
        rw [glob_star_nil]
        exact ih (by simpa using h)
      · simp [hc] at h

theorem glob_short_false :
    ∀ (k : Nat) (p n : List Char), p.length + n.length ≤ k →
      n.length < minLen p → globMatch p n = false := by
  intro k
  induction k with
  | zero =>
      intro p n hk hlt
      have hp : p = [] := List.length_eq_zero.1 (by omega)
      subst hp
      simp [minLen] at hlt
  | succ k ih =>
      intro p n hk hlt
      match p with
      | [] => simp [minLen] at hlt
      | c :: pr =>
          by_cases hc : c = '*'
          · subst hc
            have hml : minLen ('*' :: pr) = minLen pr := by simp [minLen]
            rw [hml] at hlt
            match n with
            | [] =>
                rw [glob_star_nil]
                exact ih pr [] (by simp at hk ⊢; omega) (by simpa using hlt)
            | d :: nr =>
                rw [glob_star_cons]
                rw [ih pr (d :: nr) (by simp at hk ⊢; omega) hlt,
                  ih ('*' :: pr) nr (by simp at hk ⊢; omega)
                    (by rw [hml]; simp at hlt ⊢; omega)]
                rfl
          · have hml : minLen (c :: pr) = 1 + minLen pr := by simp [minLen, hc]
            match n with
            | [] => exact glob_other_nil c pr hc
            | d :: nr =>
                rw [glob_other_cons c pr d nr hc,
                  ih pr nr (by simp at hk ⊢; omega)
                    (by rw [hml] at hlt; simp at hlt ⊢; omega)]
                simp

/-- Stripping a common `'?'`-run preserves pointwise equal patterns. -/
theorem glob_congr_q (w1 w2 : List Char) (h : ∀ n, globMatch w1 n = globMatch w2 n) :
    ∀ (a : Nat) (n : List Char),
      globMatch (List.replicate a '?' ++ w1) n = globMatch (List.replicate a '?' ++ w2) n := by
  intro a
  induction a with
  | zero => simpa using h
  | succ a ih =>
      intro n
      rw [List.replicate_succ, List.cons_append, List.cons_append]
      cases n with
      | nil => rw [glob_q_nil, glob_q_nil]
      | cons c nr => rw [glob_q_cons, glob_q_cons]; exact ih nr

/-- `*?` and `?*` match the same names. -/
theorem glob_star_q_comm (l : List Char) :
    ∀ n, globMatch ('*' :: '?' :: l) n = globMatch ('?' :: '*' :: l) n := by
  intro n
  induction n with
  | nil => rw [glob_star_nil, glob_q_nil, glob_q_nil]
  | cons c nr ih =>
      rw [glob_star_cons, glob_q_cons, glob_q_cons, ih]
      cases nr with
      | nil => rw [glob_q_nil, glob_star_nil]; simp
      | cons d nr2 => rw [glob_q_cons, glob_star_cons]

/-- Collapsing a doubled `'*'`. -/
theorem glob_star_star (l : List Char) :
    ∀ n, globMatch ('*' :: '*' :: l) n = globMatch ('*' :: l) n := by
  intro n
  induction n with
  | nil => rw [glob_star_nil]
  | cons c nr ih =>
      rw [glob_star_cons, ih, glob_star_cons]
      rw [Bool.or_assoc, Bool.or_self]

theorem dress_q (a : Nat) (b : Bool) (l : List Char) :
    ∀ n, globMatch (dress a b ('?' :: l)) n = globMatch (dress (a + 1) b l) n := by
  intro n
  cases b with
  | false =>
      have : dress a false ('?' :: l) = dress (a + 1) false l := by
        simp [dress, List.replicate_succ']
      rw [this]
  | true =>
      have h1 : dress a true ('?' :: l) = List.replicate a '?' ++ ('*' :: '?' :: l) := by
        simp [dress]
      have h2 : dress (a + 1) true l = List.replicate a '?' ++ ('?' :: '*' :: l) := by
        simp [dress, List.replicate_succ']
      rw [h1, h2]
      exact glob_congr_q _ _ (glob_star_q_comm l) a n

theorem dress_star (a : Nat) (b : Bool) (l : List Char) :
    ∀ n, globMatch (dress a b ('*' :: l)) n = globMatch (dress a true l) n := by
  intro n
  cases b with
  | false => rfl
  | true =>
      have h1 : dress a true ('*' :: l) = List.replicate a '?' ++ ('*' :: '*' :: l) := by
        simp [dress]
      have h2 : dress a true l = List.replicate a '?' ++ ('*' :: l) := by
        simp [dress]
      rw [h1, h2]
      exact glob_congr_q _ _ (glob_star_star l) a n

/-- Collapsing a whole wildcard run into its skip/unbounded-tail summary
(`wildRun`) preserves the glob semantics. -/
theorem wildRun_glob :
    ∀ (l : List Char) (a : Nat) (b : Bool) (n : List Char),
      globMatch (dress a b l) n =
        globMatch (dress (a + (wildRun l).1) (b || (wildRun l).2.1) (wildRun l).2.2) n := by
  intro l
  induction l with
  | nil => intro a b n; simp [wildRun]
  | cons c rest ih =>
      intro a b n
      by_cases hq : c = '?'
      · subst hq
        rw [dress_q a b rest, ih (a + 1) b n]
        have hw : wildRun ('?' :: rest) =
            ((wildRun rest).1 + 1, (wildRun rest).2.1, (wildRun rest).2.2) := by
          rw [wildRun]; simp
        rw [hw, show a + 1 + (wildRun rest).1 = a + ((wildRun rest).1 + 1) by omega]
      · by_cases hs : c = '*'
        · subst hs
          rw [dress_star a b rest, ih a true n]
          have hw : wildRun ('*' :: rest) =
              ((wildRun rest).1, true, (wildRun rest).2.2) := by
            rw [wildRun]; simp
          rw [hw]
          simp
        · have hw : wildRun (c :: rest) = (0, false, c :: rest) := by
            rw [wildRun]; simp [hq, hs]
          rw [hw]
          simp

/-- Correctness of the anchored walk `pmTry`, given the main equivalence for
strictly shorter patterns: its first component is the (anchored) glob
verdict, and a failure flagged `nc == 0` means the name was shorter than the
pattern can ever match. -/
theorem pmTry_spec (pp : List Char)
    (ihm : ∀ p2 : List Char, p2.length < pp.length → ∀ nam skip inf,
      pattern_matching p2 nam skip inf = globMatch (dress skip inf p2) nam) :
    ∀ np, (pmTry pp np).1 = globMatch pp np ∧
      (pmTry pp np = (false, true) → np.length < minLen pp) := by
  induction pp with
  | nil =>
      intro np
      cases np with
      | nil => exact ⟨by simp [pmTry, glob_nil_nil], by simp [pmTry]⟩
      | cons c nr => exact ⟨by simp [pmTry, glob_nil_cons], by simp [pmTry]⟩
  | cons p pr ih =>
      intro np
      by_cases hw : p = '?' ∨ p = '*'
      · -- wildcard run at the head
        have hcall : pattern_matching (wildRun pr).2.2 np
            (if p = '?' then (wildRun pr).1 + 1 else (wildRun pr).1)
            (if p = '?' then (wildRun pr).2.1 else true) = globMatch (p :: pr) np := by
          rw [ihm (wildRun pr).2.2
            (by have := wildRun_length pr; simp only [List.length_cons]; omega)]
          have hrun := wildRun_glob (p :: pr) 0 false np
          have hwr : wildRun (p :: pr) =
              (if p = '?' then (wildRun pr).1 + 1 else (wildRun pr).1,
               if p = '?' then (wildRun pr).2.1 else true,
               (wildRun pr).2.2) := by
            rw [wildRun]
            rcases hw with h | h <;> subst h <;> simp
          rw [hwr] at hrun
          simpa [dress] using hrun.symm
        have hunf : pmTry (p :: pr) np =
            if pattern_matching (wildRun pr).2.2 np
                (if p = '?' then (wildRun pr).1 + 1 else (wildRun pr).1)
                (if p = '?' then (wildRun pr).2.1 else true)
            then (true, true) else (false, np.isEmpty) := by
          rw [pmTry.eq_def]
          simp [hw]
        constructor
        · rw [hunf, hcall]
          by_cases hg : globMatch (p :: pr) np = true
          · simp [hg]
          · simp [Bool.not_eq_true] at hg
            simp [hg]
        · intro hfail
          rw [hunf, hcall] at hfail
          by_cases hg : globMatch (p :: pr) np = true
          · simp [hg] at hfail
          · simp [Bool.not_eq_true] at hg
            simp [hg] at hfail
            subst hfail
            rcases Nat.eq_zero_or_pos (minLen (p :: pr)) with h0 | h0
            · rw [glob_minLen_zero _ h0] at hg
              exact absurd hg (by simp)
            · simpa using h0
      · -- literal head
        have hne : p ≠ '*' := fun h => hw (Or.inr h)
        cases np with
        | nil =>
            refine ⟨?_, ?_⟩
            · rw [pmTry.eq_def]
              simp [hw, glob_other_nil p pr hne]
            · intro _
              simp only [minLen, List.length_nil]
              simp [hne]
        | cons c nr =>
            have ihm' : ∀ p2 : List Char, p2.length < pr.length → ∀ nam skip inf,
                pattern_matching p2 nam skip inf = globMatch (dress skip inf p2) nam :=
              fun p2 h2 => ihm p2 (by simp only [List.length_cons]; omega)
            obtain ⟨ihA, ihB⟩ := ih ihm' nr  -- hmm, ih signature
            by_cases hmatch : upch p = upch c
            · refine ⟨?_, ?_⟩
              · rw [pmTry.eq_def]
                simp only [hw, if_false, hmatch, if_true]
                rw [glob_other_cons p pr c nr hne, ihA]
                have hp : (p == '?') = false := by
                  simp [show p ≠ '?' from fun h => hw (Or.inl h)]
                simp [hp, hmatch]
              · intro hfail
                rw [pmTry.eq_def] at hfail
                simp only [hw, if_false, hmatch, if_true] at hfail
                have := ihB hfail
                simp only [minLen, List.length_cons, hne]
                simp [hne] at this ⊢
                omega
            · refine ⟨?_, ?_⟩
              · rw [pmTry.eq_def]
                simp only [hw, if_false, hmatch]
                rw [glob_other_cons p pr c nr hne]
                have hp : (p == '?') = false := by
                  simp [show p ≠ '?' from fun h => hw (Or.inl h)]
                have hup : (upch p == upch c) = false := by simp [hmatch]
                simp [hp, hup]
              · intro hfail
                rw [pmTry.eq_def] at hfail
                simp [hw, hmatch] at hfail

/-- Correctness of the retry loop: without `inf` it is a single anchored
attempt, with `inf` it implements a leading unbounded tail. -/
theorem pmLoop_spec (pat : List Char)
    (ihm : ∀ p2 : List Char, p2.length < pat.length → ∀ nam skip inf,
      pattern_matching p2 nam skip inf = globMatch (dress skip inf p2) nam) :
    ∀ nam, (pmLoop pat nam false = globMatch pat nam) ∧
      (pmLoop pat nam true = globMatch ('*' :: pat) nam) := by
  intro nam
  induction nam with
  | nil =>
      obtain ⟨hT1, hT2⟩ := pmTry_spec pat ihm []
      rcases hp : pmTry pat [] with ⟨b1, b2⟩
      rw [hp] at hT1 hT2
      simp only at hT1
      constructor
      · rw [pmLoop.eq_def, hp]
        cases b1 <;> simp [← hT1]
      · rw [pmLoop.eq_def, hp, glob_star_nil]
        cases b1 <;> cases b2 <;> simp [← hT1]
  | cons c nr ih =>
      obtain ⟨hT1, hT2⟩ := pmTry_spec pat ihm (c :: nr)
      rcases hp : pmTry pat (c :: nr) with ⟨b1, b2⟩
      rw [hp] at hT1 hT2
      simp only at hT1
      constructor
      · rw [pmLoop.eq_def, hp]
        cases b1 <;> simp [← hT1]
      · rw [pmLoop.eq_def, hp, glob_star_cons]
        cases b1
        · cases b2
          · -- `nc != 0`: retry one name character further
            simp only [Bool.and_self, Bool.not_false, if_true]
            rw [ih.2]
            simp [← hT1]
          · -- `nc == 0`: the walk exhausted the name, no retry can match
            have hlen := hT2 rfl
            have hfail2 : globMatch ('*' :: pat) nr = false := by
              apply glob_short_false (('*' :: pat).length + nr.length) _ _ le_rfl
              simp only [minLen, if_pos rfl, List.length_cons] at hlen ⊢
              omega
            simp [← hT1, hfail2]
        · simp [← hT1]

/-- The matcher equals the glob semantics of its skip/unbounded-tail context
followed by the remaining pattern. -/
theorem pattern_matching_glob :
    ∀ (pat nam : List Char) (skip : Nat) (inf : Bool),
      pattern_matching pat nam skip inf = globMatch (dress skip inf pat) nam := by
  suffices H : ∀ (N : Nat) (pat : List Char), pat.length ≤ N →
      ∀ (nam : List Char) (skip : Nat) (inf : Bool),
        pattern_matching pat nam skip inf = globMatch (dress skip inf pat) nam by
    exact fun pat nam skip inf => H pat.length pat le_rfl nam skip inf
  intro N
  induction N using Nat.strong_induction_on with
  | _ N ih =>
      intro pat hlen nam skip inf
      have ihm : ∀ p2 : List Char, p2.length < pat.length → ∀ nam skip inf,
          pattern_matching p2 nam skip inf = globMatch (dress skip inf p2) nam := by
        intro p2 h2 nam2 skip2 inf2
        exact ih p2.length (by omega) p2 le_rfl nam2 skip2 inf2
      induction skip generalizing nam with
      | zero =>
          rw [pattern_matching.eq_def]
          simp only
          by_cases hpe : (pat.isEmpty && inf) = true
          · rw [if_pos hpe]
            obtain ⟨hp1, hp2⟩ := Bool.and_eq_true_iff.1 hpe
            have : pat = [] := by simpa using hp1
            subst this
            subst hp2
            rw [show dress 0 true [] = ['*'] from rfl, glob_star_all]
          · rw [if_neg hpe]
            cases inf
            · rw [show dress 0 false pat = pat from rfl]
              exact (pmLoop_spec pat ihm nam).1
            · rw [show dress 0 true pat = '*' :: pat from rfl]
              exact (pmLoop_spec pat ihm nam).2
      | succ s ihs =>
          cases nam with
          | nil =>
              rw [pattern_matching.eq_def]
              simp only
              rw [show dress (s + 1) inf pat = '?' :: dress s inf pat from by
                simp [dress, List.replicate_succ], glob_q_nil]
          | cons c nr =>
              rw [pattern_matching.eq_def]
              simp only
              rw [ihs nr]
              rw [show dress (s + 1) inf pat = '?' :: dress s inf pat from by
                simp [dress, List.replicate_succ], glob_q_cons]

/-- C4. Wildcard matching: `pattern_matching(pat, name, 0, 0)` decides
exactly the case-insensitive glob semantics in which `'?'` matches one
character and `'*'` zero or more (`globMatch`); a pattern exhausted exactly
when the name is exhausted matches; an empty remaining pattern under an
active unbounded-tail context matches vacuously; and the particular
examples of the claim behave as stated. -/
theorem claim_C4 :
    (∀ pat nam, pattern_matching pat nam 0 false = globMatch pat nam) ∧
    pattern_matching [] [] 0 false = true ∧
    (∀ nam, pattern_matching [] nam 0 true = true) ∧
    pattern_matching "*.txt".toList "a.txt".toList 0 false = true ∧
    pattern_matching "*.txt".toList ".txt".toList 0 false = true ∧
    pattern_matching "*.txt".toList "a.tx".toList 0 false = false ∧
    pattern_matching "a?c".toList "abc".toList 0 false = true ∧
    pattern_matching "a?c".toList "ac".toList 0 false = false ∧
    pattern_matching "a?c".toList "abbc".toList 0 false = false ∧
    pattern_matching "*".toList "".toList 0 false = true ∧
    pattern_matching "*".toList "xyz".toList 0 false = true ∧
    pattern_matching "a*b*c".toList "aXbYc".toList 0 false = true ∧
    pattern_matching "a*b*c".toList "abc".toList 0 false = true ∧
    pattern_matching "a*b*c".toList "acb".toList 0 false = false := by
  have hmain : ∀ pat nam, pattern_matching pat nam 0 false = globMatch pat nam :=
    fun pat nam => pattern_matching_glob pat nam 0 false
  refine ⟨hmain, ?_, ?_, ?_, ?_, ?_, ?_, ?_, ?_, ?_, ?_, ?_, ?_, ?_⟩
  · rw [hmain]; exact glob_nil_nil
  · intro nam
    rw [pattern_matching_glob]
    exact glob_star_all nam
  all_goals rw [hmain]; simp [globMatch, upch]

/-! ### C5 — mount lifecycle `vfs_mount` (vfs.c:2210-2324)

The backend mount/unmount primitives (`f_mount`, `lfs_mount`,
`lfs_unmount`, `fs_start`) and `vfs_malloc` are external; one call's results
are supplied by a `MountOracle`. -/

inductive VfsEvent_t where
  | EVT_MOUNT
  | EVT_UNMOUNT
  | EVT_MOUNT_FAIL
deriving DecidableEq, Repr

structure MountOracle where
  mallocOk : Bool        -- `vfs_malloc` returned non-null
  ffMountResult : Int    -- `_ff_errno(f_mount(..))` resp. `lfs_mount(..)`
  ffUnmountResult : Int  -- `_ff_errno(f_mount(nullptr, ..))` resp. `lfs_unmount(..)`
  jesStartResult : Int   -- `_jes_errno(fs_start(FS_START_NORMAL))`
deriving Repr

/-- The backend-dispatch switch of `vfs_mount` (vfs.c:2221-2308) for entry
`e` at table position `i`: result code and updated entry.  FatFS and
LittleFS arms share their shape: allocate state on first use (`-ENOMEM` when
the allocation fails), set `index = i + 1`, mount, and clear `index` again
on failure (LittleFS collapses its failure code to minus ENXIO); unmount
dispatches the backend unmount, clears `index`, and frees the state.  The
JesFS arm starts the filesystem regardless of the `mount` flag and never
clears `index`. -/
def vfsMountSwitch (e : FileSystem_t) (i : Nat) (orc : MountOracle) (mount : Bool) :
    Int × FileSystem_t :=
  match e.typ with
  | .FS_FATFS | .FS_LITTLEFS =>
      if mount then
        if e.fsAllocated || orc.mallocOk then
          let e1 := { e with fsAllocated := true, index := (i : Int) + 1 }
          if orc.ffMountResult ≠ 0 then
            (if e.typ = .FS_LITTLEFS then (- ENXIO) else orc.ffMountResult,
             { e1 with index := 0 })
          else (0, e1)
        else (-ENOMEM, e)
      else
        if e.fsAllocated then
          (orc.ffUnmountResult, { e with index := 0, fsAllocated := false })
        else (-ENOENT, e)
  | .FS_JESFS =>
      if orc.jesStartResult == 0 then (0, { e with index := (i : Int) + 1 })
      else (orc.jesStartResult, e)
  | _ => (-ENOENT, e)

/-- `vfs_mount` for a resolved entry `e` at position `i`: the backend switch
followed by the single event dispatch of vfs.c:2309-2322.  Returns the
result code, the updated entry, and the list of events raised to the
entry's callback. -/
def vfsMountEntry (e : FileSystem_t) (i : Nat) (orc : MountOracle) (mount : Bool) :
    Int × FileSystem_t × List VfsEvent_t :=
  let r := vfsMountSwitch e i orc mount
  if r.1 == 0 then
    (r.1, r.2,
      if r.2.hasCb then [if r.2.index == 0 then .EVT_UNMOUNT else .EVT_MOUNT] else [])
  else if mount && r.2.hasCb then
    (r.1, r.2, [.EVT_MOUNT_FAIL])
  else (r.1, r.2, [])

/-- `vfs_mount(path, mount)` (vfs.c:2210-2324): resolve with `force = true`,
run the switch and event dispatch on the resolved entry. -/
def vfs_mount (tbl : List FileSystem_t) (path : Option CStr) (orc : MountOracle)
    (mount : Bool) : Int × List FileSystem_t × List VfsEvent_t :=
  let r := _vfs_find_entry tbl path true
  if r < 0 then (r, tbl, [])
  else
    match tbl[r.toNat]? with
    | none => (-ENOENT, tbl, [])  -- unreachable: the resolver returns a table position
    | some e =>
        let s := vfsMountEntry e r.toNat orc mount
        (s.1, tbl.set r.toNat s.2.1, s.2.2)

/-- C5. Mount lifecycle events: every `vfs_mount` call raises at most one
event; with a callback installed, on a FatFS/LittleFS entry a mount attempt
whose backend mount fails (e.g. reports no filesystem) raises exactly one
`EVT_MOUNT_FAIL` and leaves the device index 0, a successful mount of the
entry at position `i` raises exactly one `EVT_MOUNT` and sets the index to
`i + 1`, and a successful unmount raises exactly one `EVT_UNMOUNT` and
clears the index to 0. -/
theorem claim_C5 :
    (∀ e i orc mount, (vfsMountEntry e i orc mount).2.2.length ≤ 1) ∧
    (∀ (e : FileSystem_t) i orc, e.typ = .FS_FATFS ∨ e.typ = .FS_LITTLEFS →
      e.hasCb = true → (e.fsAllocated || orc.mallocOk) = true → orc.ffMountResult ≠ 0 →
      (vfsMountEntry e i orc true).2.2 = [.EVT_MOUNT_FAIL] ∧
      (vfsMountEntry e i orc true).2.1.index = 0) ∧
    (∀ (e : FileSystem_t) i orc, e.typ = .FS_FATFS ∨ e.typ = .FS_LITTLEFS →
      e.hasCb = true → (e.fsAllocated || orc.mallocOk) = true → orc.ffMountResult = 0 →
      (vfsMountEntry e i orc true).2.2 = [.EVT_MOUNT] ∧
      (vfsMountEntry e i orc true).2.1.index = (i : Int) + 1) ∧
    (∀ (e : FileSystem_t) i orc, e.typ = .FS_FATFS ∨ e.typ = .FS_LITTLEFS →
      e.hasCb = true → e.fsAllocated = true → orc.ffUnmountResult = 0 →
      (vfsMountEntry e i orc false).2.2 = [.EVT_UNMOUNT] ∧
      (vfsMountEntry e i orc false).2.1.index = 0) := by
  refine ⟨?_, ?_, ?_, ?_⟩
  · intro e i orc mount
    unfold vfsMountEntry
    rcases vfsMountSwitch e i orc mount with ⟨ret, e2⟩
    by_cases h1 : (ret == 0) = true
    · simp only [h1, if_true]
      by_cases h2 : e2.hasCb = true <;> simp [h2]
    · simp only [h1]
      by_cases h2 : (mount && e2.hasCb) = true <;> simp [h1, h2]
  · intro e i orc htyp hcb halloc hfail
    have hsw : vfsMountSwitch e i orc true =
        ((if e.typ = .FS_LITTLEFS then (- ENXIO) else orc.ffMountResult),
         { e with fsAllocated := true, index := 0 }) := by
      rcases htyp with h | h <;>
        simp [vfsMountSwitch, h, halloc, hfail]
    have hne : (if e.typ = .FS_LITTLEFS then (- ENXIO) else orc.ffMountResult) ≠ 0 := by
      by_cases h : e.typ = .FS_LITTLEFS <;> simp [h, hfail, ENXIO]
    unfold vfsMountEntry
    rw [hsw]
    simp [hne, hcb]
  · intro e i orc htyp hcb halloc hok
    have hsw : vfsMountSwitch e i orc true =
        (0, { e with fsAllocated := true, index := (i : Int) + 1 }) := by
      rcases htyp with h | h <;>
        simp [vfsMountSwitch, h, halloc, hok]
    unfold vfsMountEntry
    rw [hsw]
    have : ((i : Int) + 1 == 0) = false := by
      simp only [beq_eq_false_iff_ne, ne_eq]
      omega
    simp [hcb, this]
  · intro e i orc htyp hcb halloc hok
    have hsw : vfsMountSwitch e i orc false =
        (0, { e with index := 0, fsAllocated := false }) := by
      rcases htyp with h | h <;>
        simp [vfsMountSwitch, h, halloc, hok]
    unfold vfsMountEntry
    rw [hsw]
    simp [hcb]

def entrySPI : FileSystem_t :=
  { drive := [Char.ofNat 83, Char.ofNat 80, Char.ofNat 73, Char.ofNat 58],
    typ := .FS_FATFS, fixed := true, index := 0, namelen := 4,
    fsAllocated := false, hasCb := true }

theorem claim_C5_witness :
    (vfsMountEntry entrySPI 0 ⟨true, (- ENXIO), 0, 0⟩ true).2.2 = [.EVT_MOUNT_FAIL] ∧
    (vfsMountEntry entrySPI 0 ⟨true, (- ENXIO), 0, 0⟩ true).2.1.index = 0 ∧
    (vfsMountEntry entrySPI 0 ⟨true, 0, 0, 0⟩ true).2.2 = [.EVT_MOUNT] :=
  ⟨(claim_C5.2.1 entrySPI 0 ⟨true, (- ENXIO), 0, 0⟩ (Or.inl rfl) rfl (by decide)
      (by decide)).1,
   (claim_C5.2.1 entrySPI 0 ⟨true, (- ENXIO), 0, 0⟩ (Or.inl rfl) rfl (by decide)
      (by decide)).2,
   (claim_C5.2.2.1 entrySPI 0 ⟨true, 0, 0, 0⟩ (Or.inl rfl) rfl (by decide) rfl).1⟩

/-! ### C6 — file-handle attach/detach (vfs.c:471-615, 662-703) -/

/-- `VfsFile_t`: only the `filesys` owning-entry reference matters here,
kept as the entry's table position (`none` = null pointer).  The union
payload is backend state. -/
structure VfsFile_t where
  filesys : Option Nat
deriving DecidableEq, Repr

/-- Backend results consumed by one open/close call. -/
structure OpenOracle where
  ffOpenResult : Int    -- `_ff_errno(f_open(..))`
  lfsOpenResult : Int   -- `lfs_file_opencfg(..)`
  jesOpenResult : Int   -- `_jes_errno(fs_open(..))`
  closeResult : Int     -- the backend close result
deriving Repr

/-- `vfs_file_open(file, path, flags)` (vfs.c:471-615): resolve the drive,
attach `file->filesys`, reject a bare mount-root path with `-EBADF`
(returning before the failure cleanup), dispatch the backend open, and clear
`file->filesys` when the switch left a negative result. -/
def vfs_file_open (tbl : List FileSystem_t) (file : VfsFile_t) (path : Option CStr)
    (orc : OpenOracle) : Int × VfsFile_t :=
  let r := _vfs_find_entry tbl path false
  if r < 0 then (-ENOENT, file)
  else
    match tbl[r.toNat]?, path with
    | some e, some p =>
        let file1 : VfsFile_t := ⟨some r.toNat⟩
        -- "We cannot open the root entries" (vfs.c:493-496)
        if ncmpEq p e.drive e.namelen && !(charAt p e.namelen == Char.ofNat 92) &&
            !(charAt p e.namelen == '/') then
          (-EBADF, file1)
        else
          let ret : Int :=
            match e.typ with
            | .FS_FATFS => orc.ffOpenResult
            | .FS_LITTLEFS => orc.lfsOpenResult
            | .FS_JESFS => orc.jesOpenResult
            | _ => -ENOENT
          if ret < 0 then (ret, ⟨none⟩) else (ret, file1)
    | _, _ => (-ENOENT, file)  -- unreachable: the resolver returned a table position

/-- `vfs_file_close(file)` (vfs.c:662-703): dispatch the backend close (a
handle whose entry kind matches no compiled backend keeps `-EBADF`), then
detach `file->filesys` unconditionally. -/
def vfs_file_close (tbl : List FileSystem_t) (file : VfsFile_t) (orc : OpenOracle) :
    Int × VfsFile_t :=
  let ret : Int :=
    match file.filesys.bind (tbl[·]?) with
    | some e =>
        match e.typ with
        | .FS_FATFS | .FS_LITTLEFS | .FS_JESFS => orc.closeResult
        | _ => -EBADF
    | none => -EBADF
  (ret, ⟨none⟩)

def entrySPImounted : FileSystem_t := { entrySPI with index := 1 }

/-- C6. Handle detachment.  The bare mount-root rejection refutes the first
half of the claim: `vfs_file_open` on `"SPI:"` returns `-EBADF` with the
handle's owning-entry reference still attached (the `return(-EBADF)` at
vfs.c:495 precedes the cleanup at vfs.c:610-613), while every switch-level
failure does clear it; `vfs_file_close` detaches unconditionally. -/
theorem claim_C6 :
    (vfs_file_open [entrySPImounted] ⟨none⟩ (some "SPI:".toList) ⟨0, 0, 0, 0⟩).1
      = -EBADF ∧
    (vfs_file_open [entrySPImounted] ⟨none⟩ (some "SPI:".toList) ⟨0, 0, 0, 0⟩).2.filesys
      = some 0 ∧
    (vfs_file_open [entrySPImounted] ⟨none⟩ (some "SPI:/f".toList)
      ⟨-ENOENT, 0, 0, 0⟩).1 = -ENOENT ∧
    (vfs_file_open [entrySPImounted] ⟨none⟩ (some "SPI:/f".toList)
      ⟨-ENOENT, 0, 0, 0⟩).2.filesys = none ∧
    (∀ tbl file orc, (vfs_file_close tbl file orc).2.filesys = none) :=
  ⟨by decide, by decide, by decide, by decide, fun tbl file orc => rfl⟩

/-! ### C7 — `vfs_file_seek` (vfs.c:910-985) -/

def SEEK_SET : Int := 0
def SEEK_CUR : Int := 1
def SEEK_END : Int := 2

/-- The FatFS `FIL` state the wrapper reads: `f_tell` (`fptr`) and `f_size`
(`fsize`); also reused for the JesFS `file_pos`/`file_len` pair. -/
structure FIL where
  fptr : Nat
  fsize : Nat
deriving DecidableEq, Repr

/-- Behaviour of the external `f_lseek(target)`: `_ff_errno` result and the
resulting `f_tell`. -/
structure LseekOracle where
  lseek : Nat → Int × Nat

/-- The FatFS arm of `vfs_file_seek` (vfs.c:917-947).  Note the `SEEK_END`
base is `f_size(..) + 1`, not the file size. -/
def vfs_file_seek_fatfs (f : FIL) (orc : LseekOracle) (offset : Nat) (whence : Int) :
    Int × FIL :=
  if whence = SEEK_SET ∨ whence = SEEK_CUR ∨ whence = SEEK_END then
    let start : Nat :=
      if whence = SEEK_SET then 0
      else if whence = SEEK_CUR then f.fptr
      else f.fsize + 1
    let r := orc.lseek (start + offset)
    let f2 := { f with fptr := r.2 }
    if r.1 = 0 ∧ r.2 ≠ start + offset then (-ENOSPC, f2) else (r.1, f2)
  else (-EINVAL, f)

/-- `vfs_file_seek` dispatch (vfs.c:910-985): FatFS computes and verifies a
target; LittleFS passes `offset`/`whence` straight to `lfs_file_seek`
(result supplied as `lfsResult`); JesFS computes the same `SEEK_END`-plus-1
base, stores the position without any backend call or verification, and
returns 0. -/
def vfs_file_seek (e : FileSystem_t) (f : FIL) (fatOrc : LseekOracle) (lfsResult : Int)
    (offset : Nat) (whence : Int) : Int × FIL :=
  match e.typ with
  | .FS_FATFS => vfs_file_seek_fatfs f fatOrc offset whence
  | .FS_LITTLEFS => (lfsResult, f)
  | .FS_JESFS =>
      if whence = SEEK_SET ∨ whence = SEEK_CUR ∨ whence = SEEK_END then
        let start : Nat :=
          if whence = SEEK_SET then 0
          else if whence = SEEK_CUR then f.fptr
          else f.fsize + 1
        (0, { f with fptr := start + offset })
      else (-EINVAL, f)
  | _ => (-EBADF, f)

/-- A backend whose seek clamps at the file size (FatFS read-only mode). -/
def clampOracle : LseekOracle := ⟨fun t => (0, min t 10)⟩

/-- C7 counterexample: on a 10-byte FatFS file, `seek(file, 0, SEEK_END)`
with a backend that seeks successfully and lands exactly at
`offset + file size` is reported as No-Space: the code's target is
`file size + 1`, not the claimed `offset + file size`. -/
theorem claim_C7_counterexample :
    (vfs_file_seek_fatfs ⟨0, 10⟩ clampOracle 0 SEEK_END).1 = -ENOSPC ∧
    (vfs_file_seek_fatfs ⟨0, 10⟩ clampOracle 0 SEEK_END).2.fptr = 0 + 10 ∧
    (0 : Int) ≠ -ENOSPC := by
  exact ⟨by decide, by decide, by decide⟩

/-- C7 (amended). On the FatFS backend, `vfs_file_seek` computes an absolute
target equal to `offset` plus 0, the current position, or the file size
**plus one** for `SEEK_SET`/`SEEK_CUR`/`SEEK_END` respectively (any other
`whence` yields `-EINVAL` without a backend call); when the backend seek
reports success, the result is 0 exactly when the resulting position equals
that target, and `-ENOSPC` otherwise.  The LittleFS arm performs no target
computation or verification: it returns the backend's own seek result
unchanged; the JesFS arm stores the same kind of target as the new position
with no verification and returns 0. -/
theorem claim_C7_amended (f : FIL) (orc : LseekOracle) (off : Nat) (w : Int) :
    (w = SEEK_SET ∨ w = SEEK_CUR ∨ w = SEEK_END →
      ((vfs_file_seek_fatfs f orc off w).1 = 0 ↔
        ((orc.lseek ((if w = SEEK_SET then 0
            else if w = SEEK_CUR then f.fptr else f.fsize + 1) + off)).1 = 0 ∧
         (orc.lseek ((if w = SEEK_SET then 0
            else if w = SEEK_CUR then f.fptr else f.fsize + 1) + off)).2 =
           (if w = SEEK_SET then 0
            else if w = SEEK_CUR then f.fptr else f.fsize + 1) + off)) ∧
      (vfs_file_seek_fatfs f orc off w).2.fptr =
        (orc.lseek ((if w = SEEK_SET then 0
          else if w = SEEK_CUR then f.fptr else f.fsize + 1) + off)).2) ∧
    (¬(w = SEEK_SET ∨ w = SEEK_CUR ∨ w = SEEK_END) →
      vfs_file_seek_fatfs f orc off w = (-EINVAL, f)) ∧
    (∀ e : FileSystem_t, e.typ = .FS_LITTLEFS → ∀ lr,
      vfs_file_seek e f orc lr off w = (lr, f)) ∧
    (∀ e : FileSystem_t, e.typ = .FS_JESFS →
      w = SEEK_SET ∨ w = SEEK_CUR ∨ w = SEEK_END → ∀ lr,
      vfs_file_seek e f orc lr off w =
        (0, { f with fptr := (if w = SEEK_SET then 0
          else if w = SEEK_CUR then f.fptr else f.fsize + 1) + off })) := by
  refine ⟨?_, ?_, ?_, ?_⟩
  · intro hw
    unfold vfs_file_seek_fatfs
    rw [if_pos hw]
    rcases hr : orc.lseek ((if w = SEEK_SET then 0
        else if w = SEEK_CUR then f.fptr else f.fsize + 1) + off) with ⟨r1, r2⟩
    simp only [hr]
    constructor
    · by_cases h1 : r1 = 0 ∧ r2 ≠ (if w = SEEK_SET then 0
          else if w = SEEK_CUR then f.fptr else f.fsize + 1) + off
      · rw [if_pos h1]
        constructor
        · intro hc; exact absurd hc (by simp [ENOSPC])
        · rintro ⟨-, hb⟩; exact absurd hb h1.2
      · rw [if_neg h1]
        constructor
        · intro hc
          refine ⟨hc, ?_⟩
          by_contra hne
          exact h1 ⟨hc, hne⟩
        · rintro ⟨ha, -⟩; exact ha
    · by_cases h1 : r1 = 0 ∧ r2 ≠ (if w = SEEK_SET then 0
          else if w = SEEK_CUR then f.fptr else f.fsize + 1) + off
      · rw [if_pos h1]
      · rw [if_neg h1]
  · intro hw
    unfold vfs_file_seek_fatfs
    rw [if_neg hw]
  · intro e he lr
    unfold vfs_file_seek
    rw [he]
  · intro e he hw lr
    unfold vfs_file_seek
    rw [he, if_pos hw]

theorem claim_C7_amended_witness :
    (vfs_file_seek_fatfs ⟨3, 10⟩ ⟨fun t => (0, t)⟩ 2 SEEK_CUR).1 = 0 ∧
    (vfs_file_seek_fatfs ⟨3, 10⟩ ⟨fun t => (0, t)⟩ 2 SEEK_CUR).2.fptr = 5 ∧
    vfs_file_seek_fatfs ⟨3, 10⟩ ⟨fun t => (0, t)⟩ 2 7 = (-EINVAL, ⟨3, 10⟩) := by
  have h := claim_C7_amended ⟨3, 10⟩ ⟨fun t => (0, t)⟩ 2 SEEK_CUR
  have h2 := claim_C7_amended ⟨3, 10⟩ ⟨fun t => (0, t)⟩ 2 7
  refine ⟨?_, ?_, ?_⟩
  · exact ((h.1 (by decide)).1).2 (by constructor <;> decide)
  · have := (h.1 (by decide)).2
    simpa using this
  · exact h2.2.1 (by decide)

/-! ### C8 — whole-file checksum `vfs_crc` / `CRC_FUNC` (vfs.c:1975-2006, 2990-3031) -/

/-- The 16-entry nibble lookup table for polynomial 0x04C11DB7 (vfs.c:3002-3006). -/
def CrcTable : List Nat :=
  [0x00000000, 0x04C11DB7, 0x09823B6E, 0x0D4326D9,
   0x130476DC, 0x17C56B6B, 0x1A864DB2, 0x1E475005,
   0x2608EDB8, 0x22C9F00F, 0x2F8AD6D6, 0x2B4BCB61,
   0x350C9B64, 0x31CD86D3, 0x3C8EA00A, 0x384FBDBD]

/-- One 4-bit round: `crc = (crc << 4) ^ CrcTable[crc >> 28]` in `uint32`. -/
def crcRound (c : Nat) : Nat :=
  ((c <<< 4) % 2 ^ 32) ^^^ CrcTable.getD (c >>> 28) 0

/-- Folding one caller-supplied 32-bit word: xor in, then 8 rounds. -/
def crcWord (c w : Nat) : Nat := crcRound^[8] (c ^^^ w)

/-- `CRC_FUNC(pCrc, pUint32, vLen, vInit)` (vfs.c:2990-3031): optionally
seed all-ones, then fold `vLen` words. -/
def CRC_FUNC (crc : Nat) (words : List Nat) (vInit : Bool) : Nat :=
  words.foldl crcWord (if vInit then 0xFFFFFFFF else crc)

/-- The words one read chunk of `ret` bytes contributes
(vfs.c:1994-2001): the 128-byte buffer is zero-padded after byte `ret`, but
`CRC_FUNC` receives only `ret / sizeof(uint32_t)` words, so the whole words
below `ret` (little-endian) — the bytes of a trailing partial word,
although padded, are never folded. -/
def chunkWords (chunk : List Nat) : List Nat :=
  (List.range (chunk.length / 4)).map (fun k =>
    chunk.getD (4 * k) 0 + 2 ^ 8 * chunk.getD (4 * k + 1) 0 +
    2 ^ 16 * chunk.getD (4 * k + 2) 0 + 2 ^ 24 * chunk.getD (4 * k + 3) 0)

/-- `vfs_crc(path, crc)` (vfs.c:1975-2006) for a readable file with the
given content bytes (its stat size is the content length): seed all-ones
and fold the 64-bit size as two little-endian words, then open read-only
and fold the content read in 128-byte chunks. -/
def vfs_crc (content : List Nat) : Nat :=
  let size := content.length
  let c0 := CRC_FUNC 0 [size % 2 ^ 32, size / 2 ^ 32] true
  (content.toChunks 128).foldl (fun c chunk => CRC_FUNC c (chunkWords chunk) false) c0

/-- C8. The final partial chunk is *not* folded to word alignment: the
`ret / sizeof(uint32_t)` word count drops the zero-padded trailing partial
word, so two 2-byte files with different content produce the same checksum,
while the same contents padded to a whole word produce different ones. -/
theorem claim_C8 :
    vfs_crc [97, 97] = vfs_crc [98, 98] ∧
    vfs_crc [97, 97, 0, 0] ≠ vfs_crc [98, 98, 0, 0] := by
  exact ⟨by decide, by decide⟩

/-! ### C9 — `vfs_findfirst` / `vfs_findnext` (vfs.c:1414-1428, 1497-1510) -/

/-- A directory handle's owning reference: a drive-table entry or the Root
pseudo-filesystem. -/
inductive DirRef where
  | root
  | entry (i : Nat)
deriving DecidableEq, Repr

/-- `VfsDir_t`: owning reference, the backend records still to be delivered
by `vfs_dir_read`, the borrowed glob pattern, and whether a backend
directory resource is currently held. -/
structure VfsDir_t where
  filesys : Option DirRef
  entries : List CStr
  pattern : CStr
  backendOpen : Bool
deriving DecidableEq, Repr

/-- Backend results for one directory open. -/
structure DirOracle where
  openResult : Int     -- `_ff_errno(f_opendir(..))` resp. `lfs_dir_open(..)`
  entries : List CStr  -- the names backend iteration will deliver
  closeResult : Int    -- backend closedir result
deriving Repr

/-- `strcspn(path, " \x01") <= 1`, the mount-marker test of vfs.c:1216. -/
def strcspnLe1 (p : CStr) : Bool :=
  (p.takeWhile (fun c => c ≠ ' ' ∧ c ≠ Char.ofNat 1)).length ≤ 1

/-- `vfs_dir_open(dir, path)` (vfs.c:1174-1223): zero the handle, resolve
the drive — attaching `dir->filesys` before the backend opendir, which is
dispatched per FatFS/LittleFS kind — or, for a null/empty/mount-marker
path, open the Root pseudo-filesystem (whose reads enumerate the drive
table) with no backend resource. -/
def vfs_dir_open (tbl : List FileSystem_t) (path : Option CStr) (orc : DirOracle) :
    Int × VfsDir_t :=
  if _vfs_find_entry tbl path false ≥ 0 then
    match tbl[(_vfs_find_entry tbl path false).toNat]? with
    | some e =>
        match e.typ with
        | .FS_FATFS | .FS_LITTLEFS =>
            (orc.openResult,
             ⟨some (.entry (_vfs_find_entry tbl path false).toNat), orc.entries, [],
              orc.openResult == 0⟩)
        | _ =>
            (-ENOENT,
             ⟨some (.entry (_vfs_find_entry tbl path false).toNat), orc.entries, [], false⟩)
    | none => (-ENOENT, ⟨none, [], [], false⟩)  -- unreachable: the resolver gave a position
  else
    match path with
    | none => (0, ⟨some .root, [], [], false⟩)
    | some p =>
        if strcspnLe1 p then (0, ⟨some .root, [], [], false⟩)
        else (-ENOENT, ⟨none, [], [], false⟩)

/-- `vfs_dir_close(dir)` (vfs.c:1226-1257): dispatch the backend close (the
Root kind matches no case and keeps `-EBADF`), release the resource, and
null `dir->filesys`. -/
def vfs_dir_close (dir : VfsDir_t) (orc : DirOracle) : Int × VfsDir_t :=
  let ret : Int :=
    match dir.filesys with
    | some (.entry _) => orc.closeResult
    | _ => -EBADF
  (ret, { dir with filesys := none, backendOpen := false })

/-- The scan loop of `vfs_findnext` (vfs.c:1497-1510) over the remaining
backend records: read entries, filtering each delivered name through
`pattern_matching(pattern, name, 0, 0)`, until a match (0, with the name)
or exhaustion (`vfs_dir_read` returned -1). -/
def findnextLoop (pattern : CStr) : List CStr → Int × List CStr × Option CStr
  | [] => (-1, [], none)
  | n :: rest =>
      if pattern_matching pattern n 0 false then (0, rest, some n)
      else findnextLoop pattern rest

/-- `vfs_findnext(dir, info)`. -/
def vfs_findnext (dir : VfsDir_t) : Int × VfsDir_t × Option CStr :=
  let r := findnextLoop dir.pattern dir.entries
  (r.1, { dir with entries := r.2.1 }, r.2.2)

/-- `vfs_findfirst(dir, info, path, pattern)` (vfs.c:1414-1428): open the
directory, install the pattern, run the first `vfs_findnext`; when that
first lookup returns nonzero, close the directory before returning its
error. -/
def vfs_findfirst (tbl : List FileSystem_t) (path : Option CStr) (pattern : CStr)
    (orc : DirOracle) : Int × VfsDir_t × Option CStr :=
  if (vfs_dir_open tbl path orc).1 = 0 then
    if (vfs_findnext { (vfs_dir_open tbl path orc).2 with pattern := pattern }).1 ≠ 0 then
      ((vfs_findnext { (vfs_dir_open tbl path orc).2 with pattern := pattern }).1,
       (vfs_dir_close
         (vfs_findnext { (vfs_dir_open tbl path orc).2 with pattern := pattern }).2.1
         orc).2, none)
    else vfs_findnext { (vfs_dir_open tbl path orc).2 with pattern := pattern }
  else ((vfs_dir_open tbl path orc).1, (vfs_dir_open tbl path orc).2, none)

theorem findnextLoop_spec (pattern : CStr) :
    ∀ entries : List CStr,
      (findnextLoop pattern entries).2.2 =
        entries.find? (fun n => pattern_matching pattern n 0 false) ∧
      ((findnextLoop pattern entries).1 = 0 ↔
        (entries.find? (fun n => pattern_matching pattern n 0 false)).isSome) := by
  intro entries
  induction entries with
  | nil => simp [findnextLoop, List.find?]
  | cons n rest ih =>
      by_cases h : pattern_matching pattern n 0 false = true
      · rw [findnextLoop]
        simp only [h, if_true, List.find?]
        simp [h]
      · have h' : pattern_matching pattern n 0 false = false := by simpa using h
        rw [findnextLoop]
        simp only [h', List.find?]
        simpa [h'] using ih

theorem vfs_dir_open_failed (tbl : List FileSystem_t) (path : Option CStr)
    (orc : DirOracle) (h : (vfs_dir_open tbl path orc).1 ≠ 0) :
    (vfs_dir_open tbl path orc).2.backendOpen = false := by
  unfold vfs_dir_open at h ⊢
  by_cases hr : _vfs_find_entry tbl path false ≥ 0
  · rw [if_pos hr] at h ⊢
    rcases hget : tbl[(_vfs_find_entry tbl path false).toNat]? with - | e
    · simp
    · rcases htyp : e.typ with - | - | - | - | - <;> simp_all
  · rw [if_neg hr] at h ⊢
    rcases path with - | p
    · simp at h
    · by_cases hm : strcspnLe1 p = true
      · simp [hm] at h
      · simp [hm]

/-- C9. Find resource safety: `vfs_findnext` returns exactly the first
remaining entry whose name matches the pattern; whenever the very first
lookup of a `vfs_findfirst` returns nonzero, the directory handle it opened
is closed (reference nulled, backend resource released) before that error
is returned; and a failed find never leaves the backend directory resource
held. -/
theorem claim_C9 (tbl : List FileSystem_t) (path : Option CStr) (pattern : CStr)
    (orc : DirOracle) :
    ((vfs_dir_open tbl path orc).1 = 0 →
      (vfs_findnext { (vfs_dir_open tbl path orc).2 with pattern := pattern }).1 ≠ 0 →
      (vfs_findfirst tbl path pattern orc).1 =
        (vfs_findnext { (vfs_dir_open tbl path orc).2 with pattern := pattern }).1 ∧
      (vfs_findfirst tbl path pattern orc).2.1.filesys = none ∧
      (vfs_findfirst tbl path pattern orc).2.1.backendOpen = false) ∧
    ((vfs_findfirst tbl path pattern orc).1 ≠ 0 →
      (vfs_findfirst tbl path pattern orc).2.1.backendOpen = false) ∧
    (∀ dir : VfsDir_t,
      (vfs_findnext dir).2.2 =
        dir.entries.find? (fun n => pattern_matching dir.pattern n 0 false) ∧
      ((vfs_findnext dir).1 = 0 ↔
        (dir.entries.find? (fun n => pattern_matching dir.pattern n 0 false)).isSome)) := by
  have hff : ∀ h : (vfs_dir_open tbl path orc).1 = 0,
      ∀ h2 : (vfs_findnext { (vfs_dir_open tbl path orc).2 with pattern := pattern }).1 ≠ 0,
      vfs_findfirst tbl path pattern orc =
        ((vfs_findnext { (vfs_dir_open tbl path orc).2 with pattern := pattern }).1,
         (vfs_dir_close
           (vfs_findnext { (vfs_dir_open tbl path orc).2 with pattern := pattern }).2.1
           orc).2, none) := by
    intro h h2
    unfold vfs_findfirst
    rw [if_pos h, if_pos h2]
  refine ⟨?_, ?_, ?_⟩
  · intro hopen hfail
    rw [hff hopen hfail]
    exact ⟨rfl, rfl, rfl⟩
  · intro hfail
    by_cases hopen : (vfs_dir_open tbl path orc).1 = 0
    · by_cases hnext :
          (vfs_findnext { (vfs_dir_open tbl path orc).2 with pattern := pattern }).1 = 0
      · exfalso
        apply hfail
        unfold vfs_findfirst
        rw [if_pos hopen, if_neg (by simpa using hnext)]
        exact hnext
      · rw [hff hopen hnext]
        rfl
    · unfold vfs_findfirst
      rw [if_neg hopen]
      exact vfs_dir_open_failed tbl path orc hopen
  · intro dir
    unfold vfs_findnext
    exact ⟨(findnextLoop_spec dir.pattern dir.entries).1,
      (findnextLoop_spec dir.pattern dir.entries).2⟩

theorem claim_C9_witness :
    (vfs_dir_open [entrySPImounted] (some "SPI:/".toList) ⟨0, [], 0⟩).1 = 0 ∧
    (vfs_findfirst [entrySPImounted] (some "SPI:/".toList) "*.txt".toList
      ⟨0, [], 0⟩).1 = -1 ∧
    (vfs_findfirst [entrySPImounted] (some "SPI:/".toList) "*.txt".toList
      ⟨0, [], 0⟩).2.1.backendOpen = false ∧
    (vfs_findfirst [entrySPImounted] (some "SPI:/".toList) "*.txt".toList
      ⟨0, [], 0⟩).2.1.filesys = none := by
  have h := (claim_C9 [entrySPImounted] (some "SPI:/".toList) "*.txt".toList
    ⟨0, [], 0⟩).1 (by decide) (by decide)
  exact ⟨by decide, by rw [h.1]; decide, h.2.2, h.2.1⟩

/-! ### C10 — null-path behaviour of the path-resolving operations

Each operation begins with `if (i = _vfs_find_entry(path, ..), i < 0)
return ..;` and only then enters its backend switch.  The switch bodies are
chains of external backend calls; each is abstracted as an opaque dispatch
`rest` from the resolved table position to its result and updated drive
table.  The boolean records whether the dispatch (hence any backend call or
drive-table mutation) was reached.  The per-function returns on a failed
resolve follow the source: `vfs_stat`/`vfs_mkdir`/`vfs_remove`/`vfs_rename`
/`vfs_getlabel`/`vfs_setlabel`/`vfs_fs_size`/`vfs_fs_free`/`vfs_format`
return the resolver's code itself, `vfs_file_open` returns its initial
`-ENOENT`, and `vfs_touch` returns `-1` (vfs.c:1880-1883). -/

def vfs_stat (tbl : List FileSystem_t) (path : Option CStr)
    (rest : Nat → Int × List FileSystem_t) : Int × List FileSystem_t × Bool :=
  if _vfs_find_entry tbl path false < 0 then (_vfs_find_entry tbl path false, tbl, false)
  else ((rest (_vfs_find_entry tbl path false).toNat).1,
        (rest (_vfs_find_entry tbl path false).toNat).2, true)

def vfs_mkdir (tbl : List FileSystem_t) (path : Option CStr)
    (rest : Nat → Int × List FileSystem_t) : Int × List FileSystem_t × Bool :=
  if _vfs_find_entry tbl path false < 0 then (_vfs_find_entry tbl path false, tbl, false)
  else ((rest (_vfs_find_entry tbl path false).toNat).1,
        (rest (_vfs_find_entry tbl path false).toNat).2, true)

def vfs_remove (tbl : List FileSystem_t) (path : Option CStr)
    (rest : Nat → Int × List FileSystem_t) : Int × List FileSystem_t × Bool :=
  if _vfs_find_entry tbl path false < 0 then (_vfs_find_entry tbl path false, tbl, false)
  else ((rest (_vfs_find_entry tbl path false).toNat).1,
        (rest (_vfs_find_entry tbl path false).toNat).2, true)

/-- `vfs_rename(oldpath, newpath)` resolves `oldpath`. -/
def vfs_rename (tbl : List FileSystem_t) (oldpath _newpath : Option CStr)
    (rest : Nat → Int × List FileSystem_t) : Int × List FileSystem_t × Bool :=
  if _vfs_find_entry tbl oldpath false < 0 then
    (_vfs_find_entry tbl oldpath false, tbl, false)
  else ((rest (_vfs_find_entry tbl oldpath false).toNat).1,
        (rest (_vfs_find_entry tbl oldpath false).toNat).2, true)

def vfs_getlabel (tbl : List FileSystem_t) (path : Option CStr)
    (rest : Nat → Int × List FileSystem_t) : Int × List FileSystem_t × Bool :=
  if _vfs_find_entry tbl path false < 0 then (_vfs_find_entry tbl path false, tbl, false)
  else ((rest (_vfs_find_entry tbl path false).toNat).1,
        (rest (_vfs_find_entry tbl path false).toNat).2, true)

/-- `vfs_setlabel(label)` resolves its label argument as the path. -/
def vfs_setlabel (tbl : List FileSystem_t) (label : Option CStr)
    (rest : Nat → Int × List FileSystem_t) : Int × List FileSystem_t × Bool :=
  if _vfs_find_entry tbl label false < 0 then (_vfs_find_entry tbl label false, tbl, false)
  else ((rest (_vfs_find_entry tbl label false).toNat).1,
        (rest (_vfs_find_entry tbl label false).toNat).2, true)

/-- `vfs_fs_size` returns the resolver's negative code as its `int64_t`. -/
def vfs_fs_size (tbl : List FileSystem_t) (path : Option CStr)
    (rest : Nat → Int × List FileSystem_t) : Int × List FileSystem_t × Bool :=
  if _vfs_find_entry tbl path false < 0 then (_vfs_find_entry tbl path false, tbl, false)
  else ((rest (_vfs_find_entry tbl path false).toNat).1,
        (rest (_vfs_find_entry tbl path false).toNat).2, true)

def vfs_fs_free (tbl : List FileSystem_t) (path : Option CStr)
    (rest : Nat → Int × List FileSystem_t) : Int × List FileSystem_t × Bool :=
  if _vfs_find_entry tbl path false < 0 then (_vfs_find_entry tbl path false, tbl, false)
  else ((rest (_vfs_find_entry tbl path false).toNat).1,
        (rest (_vfs_find_entry tbl path false).toNat).2, true)

/-- `vfs_format` resolves with `force = true`. -/
def vfs_format (tbl : List FileSystem_t) (path : Option CStr)
    (rest : Nat → Int × List FileSystem_t) : Int × List FileSystem_t × Bool :=
  if _vfs_find_entry tbl path true < 0 then (_vfs_find_entry tbl path true, tbl, false)
  else ((rest (_vfs_find_entry tbl path true).toNat).1,
        (rest (_vfs_find_entry tbl path true).toNat).2, true)

/-- `vfs_touch` collapses a failed resolve to `-1` (vfs.c:1880-1883). -/
def vfs_touch (tbl : List FileSystem_t) (path : Option CStr)
    (rest : Nat → Int × List FileSystem_t) : Int × List FileSystem_t × Bool :=
  if _vfs_find_entry tbl path false < 0 then (-1, tbl, false)
  else ((rest (_vfs_find_entry tbl path false).toNat).1,
        (rest (_vfs_find_entry tbl path false).toNat).2, true)

/-- C10 counterexample: `vfs_touch(NULL, info)` returns `-1`, not the
resolver's Not-Found code, so not every listed operation propagates
Not-Found for a null path. -/
theorem claim_C10_counterexample :
    (vfs_touch [entrySPImounted] none (fun _ => (0, [entrySPImounted]))).1 = -1 ∧
    (-1 : Int) ≠ -ENOENT := by
  exact ⟨rfl, by decide⟩

/-- C10 (amended). Every path-resolving operation that goes through the
drive resolver, called with a null path, returns a negative error without
any backend dispatch and with the drive table unchanged; all of them
return the resolver's Not-Found except `vfs_touch`, which collapses it to
`-1`.  `vfs_mount` additionally raises no event.  `vfs_dir_open` instead
treats the null path as the Root pseudo-filesystem and returns success
with a root directory handle holding no backend resource. -/
theorem claim_C10_amended (tbl : List FileSystem_t)
    (rest : Nat → Int × List FileSystem_t) (file : VfsFile_t) (oOrc : OpenOracle)
    (mOrc : MountOracle) (dOrc : DirOracle) (np : Option CStr) (mnt : Bool) :
    vfs_stat tbl none rest = (-ENOENT, tbl, false) ∧
    vfs_mkdir tbl none rest = (-ENOENT, tbl, false) ∧
    vfs_remove tbl none rest = (-ENOENT, tbl, false) ∧
    vfs_rename tbl none np rest = (-ENOENT, tbl, false) ∧
    vfs_getlabel tbl none rest = (-ENOENT, tbl, false) ∧
    vfs_setlabel tbl none rest = (-ENOENT, tbl, false) ∧
    vfs_fs_size tbl none rest = (-ENOENT, tbl, false) ∧
    vfs_fs_free tbl none rest = (-ENOENT, tbl, false) ∧
    vfs_format tbl none rest = (-ENOENT, tbl, false) ∧
    vfs_touch tbl none rest = (-1, tbl, false) ∧
    vfs_file_open tbl file none oOrc = (-ENOENT, file) ∧
    vfs_mount tbl none mOrc mnt = (-ENOENT, tbl, []) ∧
    (vfs_dir_open tbl none dOrc).1 = 0 ∧
    (vfs_dir_open tbl none dOrc).2.filesys = some .root ∧
    (vfs_dir_open tbl none dOrc).2.backendOpen = false := by
  refine ⟨rfl, rfl, rfl, rfl, rfl, rfl, rfl, rfl, rfl, rfl, rfl, rfl, ?_, ?_, ?_⟩ <;>
    · unfold vfs_dir_open
      rw [show _vfs_find_entry tbl none false = -ENOENT from rfl, if_neg (by decide)]

theorem claim_C10_amended_witness :
    vfs_touch [entrySPImounted] none (fun _ => (0, [entrySPImounted])) =
      (-1, [entrySPImounted], false) ∧
    (vfs_dir_open [entrySPImounted] none ⟨0, [], 0⟩).1 = 0 :=
  ⟨(claim_C10_amended [entrySPImounted] (fun _ => (0, [entrySPImounted])) ⟨none⟩
      ⟨0, 0, 0, 0⟩ ⟨true, 0, 0, 0⟩ ⟨0, [], 0⟩ none true).2.2.2.2.2.2.2.2.2.1,
   (claim_C10_amended [entrySPImounted] (fun _ => (0, [entrySPImounted])) ⟨none⟩
      ⟨0, 0, 0, 0⟩ ⟨true, 0, 0, 0⟩ ⟨0, [], 0⟩ none true).2.2.2.2.2.2.2.2.2.2.2.2.1⟩

end VFS
